import Mathlib

/-!
Verification development for the zendesk-response-times CLI (cli.py).

Shallow embedding choices:
  * A naive Python `datetime` is represented as an `Int` count of microseconds
    since 1970-01-01 00:00:00 (a Thursday); a `date` is an `Int` count of days
    since 1970-01-01.  `datetime.date()` is floor division by the length of a
    day, `datetime.weekday()` is `(day + 3) % 7` (Monday = 0), and
    `timedelta.days` is floor division of the signed microsecond total by the
    length of a day — all exactly the arithmetic the CPython types perform.
  * Python dynamic values that matter to a claim (the `Ticket.id` field, which
    the code populates from `re.Match.groupdict`) are modelled by a tagged
    union `PyVal` so that "holds the string" and "holds the integer" are
    distinguishable states.
  * The generator `Evaluate.__iter__` is modelled as a fold that returns the
    list of yielded `Evaulation`s together with an `Except` value recording
    either the final generator state or the uncaught Python exception
    (`AttributeError` from calling a method on `None`).
  * `dict` records built by `Evaulation.as_record` are modelled as association
    lists in insertion order; a key is "present" when `List.lookup` finds it.
-/

/-- Microseconds in one day; the unit conversion used by `timedelta.days` and
`datetime.date()`. -/
def usPerDay : Int := 86400000000

/-- The calendar day of a datetime, as in `datetime.date()` (day granularity,
floor division since naive datetimes form a linear timeline). -/
def dateOf (t : Int) : Int := Int.fdiv t usPerDay

/-- Weekday of a calendar day: Monday = 0 .. Sunday = 6.  Day 0 of the epoch
(1970-01-01) was a Thursday, weekday 3. -/
def dayWeekday (d : Int) : Int := (d + 3) % 7

/-- `datetime.weekday()`: the weekday of the datetime's calendar date. -/
def weekday (t : Int) : Int := dayWeekday (dateOf t)

/-- Civil-calendar conversion of a day number to (year, month, day), the
arithmetic underlying `str(datetime.date)`. -/
def civilFromDays (z0 : Int) : Int × Int × Int :=
  let z := z0 + 719468
  let era := Int.fdiv z 146097
  let doe := z - era * 146097
  let yoe := Int.fdiv (doe - Int.fdiv doe 1460 + Int.fdiv doe 36524 - Int.fdiv doe 146096) 365
  let y := yoe + era * 400
  let doy := doe - (365 * yoe + Int.fdiv yoe 4 - Int.fdiv yoe 100)
  let mp := Int.fdiv (5 * doy + 2) 153
  let dd := doy - Int.fdiv (153 * mp + 2) 5 + 1
  let m := mp + (if mp < 10 then 3 else -9)
  (y + (if m ≤ 2 then 1 else 0), m, dd)

/-- Zero-pad a nonnegative integer to two digits (`%02d`). -/
def pad2 (n : Int) : String := if n < 10 then "0" ++ toString n else toString n

/-- Zero-pad a nonnegative integer to four digits (`%04d`, years). -/
def pad4 (n : Int) : String :=
  if n < 10 then "000" ++ toString n
  else if n < 100 then "00" ++ toString n
  else if n < 1000 then "0" ++ toString n
  else toString n

/-- Zero-pad a nonnegative integer to six digits (`%06d`, microseconds). -/
def pad6 (n : Int) : String :=
  if n < 10 then "00000" ++ toString n
  else if n < 100 then "0000" ++ toString n
  else if n < 1000 then "000" ++ toString n
  else if n < 10000 then "00" ++ toString n
  else if n < 100000 then "0" ++ toString n
  else toString n

/-- `str(date)`: ISO format YYYY-MM-DD. -/
def dateStr (d : Int) : String :=
  let c := civilFromDays d
  pad4 c.1 ++ "-" ++ pad2 c.2.1 ++ "-" ++ pad2 c.2.2

/-- `str(datetime)`: "YYYY-MM-DD HH:MM:SS[.ffffff]". -/
def datetimeStr (t : Int) : String :=
  let day := dateOf t
  let rem := t - day * usPerDay
  let micro := rem % 1000000
  let secs := Int.fdiv rem 1000000
  dateStr day ++ " " ++ pad2 (Int.fdiv secs 3600) ++ ":" ++ pad2 ((Int.fdiv secs 60) % 60)
    ++ ":" ++ pad2 (secs % 60) ++ (if micro ≠ 0 then "." ++ pad6 micro else "")

/-- `str(timedelta)`: "[D day(s), ]H:MM:SS[.ffffff]" with normalized
nonnegative seconds/microseconds parts, exactly as CPython renders it. -/
def timedeltaStr (delta : Int) : String :=
  let days := Int.fdiv delta usPerDay
  let rem := delta - days * usPerDay
  let micro := rem % 1000000
  let secs := Int.fdiv rem 1000000
  let core := toString (Int.fdiv secs 3600) ++ ":" ++ pad2 ((Int.fdiv secs 60) % 60)
    ++ ":" ++ pad2 (secs % 60)
  let withDays :=
    if days ≠ 0 then
      toString days ++ " day" ++ (if days = 1 ∨ days = -1 then "" else "s") ++ ", " ++ core
    else core
  if micro ≠ 0 then withDays ++ "." ++ pad6 micro else withDays

/-- A Python value as stored in a dynamically-typed field: either an `int` or a
`str`.  Needed because dataclasses do not coerce to their annotations. -/
inductive PyVal where
  | int (n : Int)
  | str (s : String)
deriving DecidableEq, Repr

/-- `Ticket` dataclass: a single `id` field, annotated `int` in the source but
populated by `from_url` with whatever value the regex group holds. -/
structure Ticket where
  id : PyVal
deriving DecidableEq, Repr

/-- The regex `^/agent/tickets/(?P<id>\d+)$` applied to a URL path: returns the
digit group when the whole path matches (digits modelled as ASCII digits),
working over the character sequence of the path. -/
def matchTicketPath (path : String) : Option String :=
  let cs := path.data
  if cs.take 15 = "/agent/tickets/".data then
    let ds := cs.drop 15
    if ds.length > 0 && ds.all Char.isDigit then some (String.mk ds) else none
  else none

/-- `Ticket.from_url`, applied to the URL's path component (the `urlparse`
extraction is I/O glue).  `assert matched` becomes `none` on failure; on a
match the code runs `cls(**matched.groupdict())`, so the `id` field receives
the matched group, which `re` yields as a string. -/
def Ticket.from_url (path : String) : Option Ticket :=
  (matchTicketPath path).map fun ds => ⟨PyVal.str ds⟩

/-- `User` dataclass fields retained for reporting plus the role used for
classification. -/
structure User where
  name : String
  email : String
  role : String
  time_zone : String
  locale : String
  organization_id : Int
deriving DecidableEq, Repr

/-- Class attribute `ROLES_AGENT = ["agent", "admin"]`. -/
def User.ROLES_AGENT : List String := ["agent", "admin"]

/-- `User.is_agent`: membership of the role in the fixed agent-role list. -/
def User.is_agent (u : User) : Bool := User.ROLES_AGENT.contains u.role

/-- `Response`: one public comment.  The source dataclass derives
`responded_at` by parsing the `created_at` ISO string (I/O glue outside the
pairing claims); here a `Response` carries the derived fields the pairer and
report reader use: the author and the parsed timestamp. -/
structure Response where
  user : User
  responded_at : Int
deriving DecidableEq, Repr

/-- `ResponseTime` dataclass: two endpoint timestamps plus the `duration`
field that `__post_init__` fills in. -/
structure ResponseTime where
  asked_at : Int
  answered_at : Int
  duration : Int
deriving DecidableEq, Repr

/-- Constructing a `ResponseTime`: `__init__` stores the endpoints and
`__post_init__` computes `duration = answered_at - asked_at`.  Total: naive
datetime subtraction never raises. -/
def ResponseTime.make (asked answered : Int) : ResponseTime :=
  ⟨asked, answered, answered - asked⟩

/-- `ResponseTime.weekends`: for `i in range(duration.days + 1)`, the candidate
datetime `asked_at + i days` is kept when its weekday is Saturday or Sunday
(`weekday() >= 5`), and its `date()` is yielded.  `range` of a nonpositive
bound is empty, which `Int.toNat` mirrors. -/
def ResponseTime.weekends (rt : ResponseTime) : List Int :=
  (((List.range (Int.toNat (Int.fdiv rt.duration usPerDay + 1))).map
      (fun i : Nat => rt.asked_at + usPerDay * (i : Int))).filter
    (fun dt => decide (5 ≤ weekday dt))).map dateOf

/-- `ResponseTime.formula`: the f-string `"{answered_at} - {asked_at} = {duration}"`. -/
def ResponseTime.formula (rt : ResponseTime) : String :=
  datetimeStr rt.answered_at ++ " - " ++ datetimeStr rt.asked_at ++ " = "
    ++ timedeltaStr rt.duration

/-- `Evaulation` dataclass (source spelling): a response plus the optional
measurement attached to it. -/
structure Evaulation where
  response : Response
  time_taken : Option ResponseTime
deriving DecidableEq, Repr

/-- `Evaulation.as_record`: the insertion-ordered record.  The three base
columns are always written; the three measurement columns are added only under
`if self.time_taken:` (a `ResponseTime` instance is always truthy, `None` is
falsy, so the guard is exactly presence). -/
def Evaulation.as_record (e : Evaulation) : List (String × String) :=
  let base := [("email", e.response.user.email),
               ("user type", if e.response.user.is_agent then "agent" else "customer"),
               ("commented at", datetimeStr e.response.responded_at)]
  match e.time_taken with
  | some rt =>
      base ++ [("formula", rt.formula),
               ("weekends", String.intercalate "," (rt.weekends.map dateStr)),
               ("response time", timedeltaStr rt.duration)]
  | none => base

/-- An uncaught Python exception relevant to the pairer: calling a method or
reading an attribute on `None`. -/
inductive PyErr where
  | attributeError
deriving DecidableEq, Repr

instance {ε α : Type} [DecidableEq ε] [DecidableEq α] : DecidableEq (Except ε α) := fun a b =>
  match a, b with
  | .error e, .error f => if h : e = f then .isTrue (by rw [h]) else .isFalse (by simp [h])
  | .ok x, .ok y => if h : x = y then .isTrue (by rw [h]) else .isFalse (by simp [h])
  | .error _, .ok _ => .isFalse (by simp)
  | .ok _, .error _ => .isFalse (by simp)

/-- One loop iteration of `Evaluate.__iter__` on `current`, from generator
state (`prev`, `last_customer_response`).  Returns the `resp_time` computed for
this step and the updated state, or the exception the Python code would raise:
`current.user.is_agent() and not prev.user.is_agent()` dereferences `prev`
(after short-circuit only when `current` is an agent), and the `ResponseTime`
construction dereferences `last_customer_response`. -/
def Evaluate.evalStep (prev lastc : Option Response) (cur : Response) :
    Except PyErr (Option ResponseTime × Option Response × Option Response) :=
  if cur.user.is_agent then
    match prev with
    | none => .error .attributeError
    | some p =>
      if p.user.is_agent then .ok (none, some cur, lastc)
      else
        match lastc with
        | none => .error .attributeError
        | some lc =>
            .ok (some (ResponseTime.make lc.responded_at cur.responded_at), some cur, lastc)
  else
    match prev with
    | none => .ok (none, some cur, some cur)
    | some p => .ok (none, some cur, if p.user.is_agent then some cur else lastc)

/-- Running `Evaluate.__iter__` from a given generator state over the remaining
input: the list of `Evaulation`s yielded so far, and either the final state
(`prev`, `last_customer_response`) on normal exhaustion or the uncaught
exception. -/
def Evaluate.runFrom (prev lastc : Option Response) :
    List Response → List Evaulation × Except PyErr (Option Response × Option Response)
  | [] => ([], .ok (prev, lastc))
  | cur :: rest =>
    match Evaluate.evalStep prev lastc cur with
    | .error e => ([], .error e)
    | .ok (rt, prev2, lastc2) =>
      let r := Evaluate.runFrom prev2 lastc2 rest
      (⟨cur, rt⟩ :: r.fst, r.snd)

/-- Iterating `Evaluate(responses)` from the start: `prev = None`,
`last_customer_response = None`. -/
def Evaluate.iter (rs : List Response) :
    List Evaulation × Except PyErr (Option Response × Option Response) :=
  Evaluate.runFrom none none rs

-- Concrete fixtures for witnesses and counterexamples.

/-- Datetime literal helper: day number, hour, minute. -/
def dtOf (d h m : Int) : Int := (d * 86400 + h * 3600 + m * 60) * 1000000

/-- A fixture agent author (role "agent"). -/
def agentU : User := ⟨"Alice Agent", "alice@example.com", "agent", "UTC", "en-US", 7⟩

/-- A fixture customer author (role "end-user", not in the agent-role list). -/
def custU : User := ⟨"Carol Customer", "carol@example.com", "end-user", "UTC", "en-US", 9⟩

/-- Agent response at a given time. -/
def aR (t : Int) : Response := ⟨agentU, t⟩

/-- Customer response at a given time. -/
def cR (t : Int) : Response := ⟨custU, t⟩

-- Basic lemmas about one iteration and about running the generator.

theorem evalStep_ok_prev {prev lastc : Option Response} {c : Response} {rt p2 l2}
    (h : Evaluate.evalStep prev lastc c = .ok (rt, p2, l2)) : p2 = some c := by
  unfold Evaluate.evalStep at h
  split at h
  · cases prev with
    | none => simp at h
    | some p =>
      simp only [] at h
      split at h
      · simp only [Except.ok.injEq, Prod.mk.injEq] at h
        exact h.2.1.symm
      · cases lastc with
        | none => simp at h
        | some lc =>
          simp only [Except.ok.injEq, Prod.mk.injEq] at h
          exact h.2.1.symm
  · cases prev with
    | none =>
      simp only [Except.ok.injEq, Prod.mk.injEq] at h
      exact h.2.1.symm
    | some p =>
      simp only [Except.ok.injEq, Prod.mk.injEq] at h
      exact h.2.1.symm

theorem runFrom_cons_ok {prev lastc : Option Response} {c : Response} {rt p2 l2}
    (h : Evaluate.evalStep prev lastc c = .ok (rt, p2, l2)) (rest : List Response) :
    Evaluate.runFrom prev lastc (c :: rest) =
      (⟨c, rt⟩ :: (Evaluate.runFrom p2 l2 rest).fst, (Evaluate.runFrom p2 l2 rest).snd) := by
  simp [Evaluate.runFrom, h]

theorem runFrom_cons_err {prev lastc : Option Response} {c : Response} {e : PyErr}
    (h : Evaluate.evalStep prev lastc c = .error e) (rest : List Response) :
    Evaluate.runFrom prev lastc (c :: rest) = ([], .error e) := by
  simp [Evaluate.runFrom, h]

theorem runFrom_len_le (xs : List Response) : ∀ prev lastc,
    (Evaluate.runFrom prev lastc xs).fst.length ≤ xs.length := by
  induction xs with
  | nil => intro prev lastc; simp [Evaluate.runFrom]
  | cons c rest ih =>
    intro prev lastc
    cases hstep : Evaluate.evalStep prev lastc c with
    | error e => rw [runFrom_cons_err hstep]; simp
    | ok trip =>
      obtain ⟨rt, p2, l2⟩ := trip
      rw [runFrom_cons_ok hstep]
      simpa using ih p2 l2

theorem runFrom_ok_len (xs : List Response) : ∀ prev lastc st,
    (Evaluate.runFrom prev lastc xs).snd = .ok st →
    (Evaluate.runFrom prev lastc xs).fst.length = xs.length := by
  induction xs with
  | nil => intro prev lastc st _; simp [Evaluate.runFrom]
  | cons c rest ih =>
    intro prev lastc st h
    cases hstep : Evaluate.evalStep prev lastc c with
    | error e => rw [runFrom_cons_err hstep] at h; simp at h
    | ok trip =>
      obtain ⟨rt, p2, l2⟩ := trip
      rw [runFrom_cons_ok hstep] at h ⊢
      simpa using ih p2 l2 st h

theorem runFrom_err_len (xs : List Response) : ∀ prev lastc e,
    (Evaluate.runFrom prev lastc xs).snd = .error e →
    (Evaluate.runFrom prev lastc xs).fst.length < xs.length := by
  induction xs with
  | nil => intro prev lastc e h; simp [Evaluate.runFrom] at h
  | cons c rest ih =>
    intro prev lastc e h
    cases hstep : Evaluate.evalStep prev lastc c with
    | error f => rw [runFrom_cons_err hstep]; simp
    | ok trip =>
      obtain ⟨rt, p2, l2⟩ := trip
      rw [runFrom_cons_ok hstep] at h ⊢
      simpa using ih p2 l2 e h

theorem runFrom_append (xs ys : List Response) : ∀ prev lastc,
    Evaluate.runFrom prev lastc (xs ++ ys) =
      match (Evaluate.runFrom prev lastc xs).snd with
      | .ok (p2, l2) =>
          ((Evaluate.runFrom prev lastc xs).fst ++ (Evaluate.runFrom p2 l2 ys).fst,
            (Evaluate.runFrom p2 l2 ys).snd)
      | .error _ => Evaluate.runFrom prev lastc xs := by
  induction xs with
  | nil => intro prev lastc; simp [Evaluate.runFrom]
  | cons c rest ih =>
    intro prev lastc
    cases hstep : Evaluate.evalStep prev lastc c with
    | error e => rw [List.cons_append, runFrom_cons_err hstep, runFrom_cons_err hstep]
    | ok trip =>
      obtain ⟨rt, p2, l2⟩ := trip
      rw [List.cons_append, runFrom_cons_ok hstep, runFrom_cons_ok hstep, ih p2 l2]
      cases hres : (Evaluate.runFrom p2 l2 rest).snd with
      | error e => simp [hres]
      | ok st => obtain ⟨p3, l3⟩ := st; simp [hres]

theorem runFrom_append_ok {xs : List Response} (ys : List Response) {prev lastc p2 l2}
    (h : (Evaluate.runFrom prev lastc xs).snd = .ok (p2, l2)) :
    Evaluate.runFrom prev lastc (xs ++ ys) =
      ((Evaluate.runFrom prev lastc xs).fst ++ (Evaluate.runFrom p2 l2 ys).fst,
        (Evaluate.runFrom p2 l2 ys).snd) := by
  rw [runFrom_append xs ys prev lastc, h]

theorem runFrom_append_err {xs : List Response} (ys : List Response) {prev lastc e}
    (h : (Evaluate.runFrom prev lastc xs).snd = .error e) :
    Evaluate.runFrom prev lastc (xs ++ ys) = Evaluate.runFrom prev lastc xs := by
  rw [runFrom_append xs ys prev lastc, h]

theorem evalStep_customer_fresh {prev lastc : Option Response} {c : Response}
    (hc : c.user.is_agent = false)
    (hp : prev = none ∨ ∃ p, prev = some p ∧ p.user.is_agent = true) :
    Evaluate.evalStep prev lastc c = .ok (none, some c, some c) := by
  rcases hp with hp | ⟨p, hp, hpa⟩
  · subst hp; simp [Evaluate.evalStep, hc]
  · subst hp; simp [Evaluate.evalStep, hc, hpa]

theorem evalStep_customer_run {p c : Response} {lastc : Option Response}
    (hp : p.user.is_agent = false) (hc : c.user.is_agent = false) :
    Evaluate.evalStep (some p) lastc c = .ok (none, some c, lastc) := by
  simp [Evaluate.evalStep, hc, hp]

theorem evalStep_agent_answers {p lc a : Response} (ha : a.user.is_agent = true)
    (hp : p.user.is_agent = false) :
    Evaluate.evalStep (some p) (some lc) a =
      .ok (some (ResponseTime.make lc.responded_at a.responded_at), some a, some lc) := by
  simp [Evaluate.evalStep, ha, hp]

theorem runFrom_customers (cs : List Response) : ∀ (d : Response) (l : Option Response),
    d.user.is_agent = false → (∀ x ∈ cs, x.user.is_agent = false) →
    Evaluate.runFrom (some d) l cs =
      (cs.map fun x => ⟨x, none⟩, .ok (some (cs.getLastD d), l)) := by
  induction cs with
  | nil => intro d l _ _; simp [Evaluate.runFrom]
  | cons c rest ih =>
    intro d l hd hcs
    have hc : c.user.is_agent = false := hcs c (by simp)
    rw [runFrom_cons_ok (evalStep_customer_run hd hc),
      ih c l hc (fun x hx => hcs x (by simp [hx])), List.getLastD_cons]
    simp

theorem getLastD_all {P : Response → Prop} (cs : List Response) : ∀ d : Response,
    P d → (∀ x ∈ cs, P x) → P (cs.getLastD d) := by
  induction cs with
  | nil => intro d hd _; simpa using hd
  | cons c rest ih =>
    intro d hd hcs
    rw [List.getLastD_cons]
    exact ih c (hcs c (by simp)) (fun x hx => hcs x (by simp [hx]))

theorem runFrom_concat_ok (q : List Response) : ∀ {x : Response} {prev lastc p2 l2},
    (Evaluate.runFrom prev lastc (q ++ [x])).snd = .ok (p2, l2) → p2 = some x := by
  induction q with
  | nil =>
    intro x prev lastc p2 l2 h
    simp only [List.nil_append] at h
    cases hstep : Evaluate.evalStep prev lastc x with
    | error e => rw [runFrom_cons_err hstep] at h; simp at h
    | ok trip =>
      obtain ⟨rt, q2, m2⟩ := trip
      rw [runFrom_cons_ok hstep] at h
      simp [Evaluate.runFrom] at h
      rw [← h.1, evalStep_ok_prev hstep]
  | cons c rest ih =>
    intro x prev lastc p2 l2 h
    rw [List.cons_append] at h
    cases hstep : Evaluate.evalStep prev lastc c with
    | error e => rw [runFrom_cons_err hstep] at h; simp at h
    | ok trip =>
      obtain ⟨rt, q2, m2⟩ := trip
      rw [runFrom_cons_ok hstep] at h
      exact ih h

theorem getElem?_append_len {α : Type} (l1 l2 : List α) (n : Nat) :
    (l1 ++ l2)[l1.length + n]? = l2[n]? := by
  induction l1 with
  | nil => simp
  | cons a t ih =>
    have hidx : (a :: t).length + n = (t.length + n) + 1 := by
      simp [List.length_cons]; omega
    rw [hidx, List.cons_append, List.getElem?_cons_succ, ih]

theorem run_gap_aux (c a : Response) (cs t : List Response) (prev l : Option Response)
    (hprev : prev = none ∨ ∃ p, prev = some p ∧ p.user.is_agent = true)
    (hc : c.user.is_agent = false) (hcs : ∀ x ∈ cs, x.user.is_agent = false)
    (ha : a.user.is_agent = true) :
    Evaluate.runFrom prev l (c :: (cs ++ a :: t)) =
      (⟨c, none⟩ :: ((cs.map fun x => ⟨x, none⟩) ++
          ⟨a, some (ResponseTime.make c.responded_at a.responded_at)⟩ ::
            (Evaluate.runFrom (some a) (some c) t).fst),
        (Evaluate.runFrom (some a) (some c) t).snd) := by
  rw [runFrom_cons_ok (evalStep_customer_fresh hc hprev)]
  have hrun := runFrom_customers cs c (some c) hc hcs
  have hlast : (cs.getLastD c).user.is_agent = false :=
    getLastD_all cs c hc hcs
  rw [runFrom_append_ok (a :: t) (by rw [hrun]),
    runFrom_cons_ok (evalStep_agent_answers ha hlast), hrun]

theorem run_gap_get (p cs t : List Response) (c a : Response)
    (hp : p = [] ∨ ∃ q x, p = q ++ [x] ∧ x.user.is_agent = true)
    (hc : c.user.is_agent = false) (hcs : ∀ x ∈ cs, x.user.is_agent = false)
    (ha : a.user.is_agent = true)
    (hem : (((Evaluate.iter (p ++ c :: (cs ++ a :: t))).fst)[p.length + (cs.length + 1)]?).isSome
      = true) :
    ((Evaluate.iter (p ++ c :: (cs ++ a :: t))).fst)[p.length + (cs.length + 1)]? =
      some ⟨a, some (ResponseTime.make c.responded_at a.responded_at)⟩ := by
  unfold Evaluate.iter at hem ⊢
  cases hres : (Evaluate.runFrom none none p).snd with
  | error e =>
    rw [runFrom_append_err _ hres] at hem
    have hlt := runFrom_err_len p none none e hres
    rw [List.getElem?_eq_none (by omega)] at hem
    simp at hem
  | ok st =>
    obtain ⟨p2, l2⟩ := st
    have hp2 : p2 = none ∨ ∃ x, p2 = some x ∧ x.user.is_agent = true := by
      rcases hp with hp | ⟨q, x, hpql, hxa⟩
      · subst hp
        simp [Evaluate.runFrom] at hres
        exact Or.inl hres.1.symm
      · subst hpql
        exact Or.inr ⟨x, runFrom_concat_ok q hres, hxa⟩
    have hlen := runFrom_ok_len p none none (p2, l2) hres
    rw [runFrom_append_ok _ hres]
    have hgap := run_gap_aux c a cs t p2 l2
      (by rcases hp2 with h | ⟨x, hx, hxa⟩; exacts [Or.inl h, Or.inr ⟨x, hx, hxa⟩]) hc hcs ha
    rw [hgap]
    simp only []
    rw [← hlen, getElem?_append_len, List.getElem?_cons_succ]
    have hml : cs.length = (cs.map fun x => (⟨x, none⟩ : Evaulation)).length + 0 := by simp
    rw [hml, getElem?_append_len]
    simp

theorem runFrom_total (xs : List Response) : ∀ prev lastc,
    prev.isSome = true →
    (∀ q, prev = some q → q.user.is_agent = false → lastc.isSome = true) →
    (Evaluate.runFrom prev lastc xs).fst.map Evaulation.response = xs ∧
    ∃ p2 l2, (Evaluate.runFrom prev lastc xs).snd = .ok (p2, l2) := by
  induction xs with
  | nil =>
    intro prev lastc _ _
    exact ⟨by simp [Evaluate.runFrom], prev, lastc, by simp [Evaluate.runFrom]⟩
  | cons c rest ih =>
    intro prev lastc hps hInv
    obtain ⟨pp, hpp⟩ := Option.isSome_iff_exists.mp hps
    subst hpp
    cases hca : c.user.is_agent with
    | true =>
      cases hppa : pp.user.is_agent with
      | true =>
        have hstep : Evaluate.evalStep (some pp) lastc c = .ok (none, some c, lastc) := by
          simp [Evaluate.evalStep, hca, hppa]
        rw [runFrom_cons_ok hstep]
        have := ih (some c) lastc (by simp)
          (fun q hq hqa => by cases hq; rw [hca] at hqa; cases hqa)
        exact ⟨by simpa using this.1, this.2⟩
      | false =>
        obtain ⟨lc, hlc⟩ := Option.isSome_iff_exists.mp (hInv pp rfl hppa)
        subst hlc
        rw [runFrom_cons_ok (evalStep_agent_answers hca hppa)]
        have := ih (some c) (some lc) (by simp)
          (fun q hq hqa => by cases hq; rw [hca] at hqa; cases hqa)
        exact ⟨by simpa using this.1, this.2⟩
    | false =>
      cases hppa : pp.user.is_agent with
      | true =>
        rw [runFrom_cons_ok (evalStep_customer_fresh hca (Or.inr ⟨pp, rfl, hppa⟩))]
        have := ih (some c) (some c) (by simp) (fun q hq _ => by simp)
        exact ⟨by simpa using this.1, this.2⟩
      | false =>
        rw [runFrom_cons_ok (evalStep_customer_run hppa hca)]
        have := ih (some c) lastc (by simp)
          (fun q hq _ => by cases hq; exact hInv pp rfl hppa)
        exact ⟨by simpa using this.1, this.2⟩

theorem evalStep_some_rt {prev lastc : Option Response} {c : Response} {rt0 : ResponseTime}
    {p2 l2 : Option Response}
    (h : Evaluate.evalStep prev lastc c = .ok (some rt0, p2, l2)) :
    c.user.is_agent = true ∧ ∃ pp lc, prev = some pp ∧ pp.user.is_agent = false ∧
      lastc = some lc ∧ rt0 = ResponseTime.make lc.responded_at c.responded_at := by
  unfold Evaluate.evalStep at h
  split at h
  case isTrue hca =>
    cases prev with
    | none => simp at h
    | some p =>
      simp only [] at h
      split at h
      case isTrue hpa => simp at h
      case isFalse hpa =>
        cases lastc with
        | none => simp at h
        | some lc =>
          simp only [Except.ok.injEq, Prod.mk.injEq, Option.some.injEq] at h
          exact ⟨hca, p, lc, rfl, by simpa using hpa, rfl, h.1.symm⟩
  case isFalse hca =>
    cases prev with
    | none => simp at h
    | some p => simp at h

theorem evalStep_ok_inv {prev lastc : Option Response} {c : Response}
    {rt : Option ResponseTime} {p2 l2 : Option Response}
    (h : Evaluate.evalStep prev lastc c = .ok (rt, p2, l2))
    (hInv : ∀ q, prev = some q → q.user.is_agent = false → lastc.isSome = true) :
    ∀ q, p2 = some q → q.user.is_agent = false → l2.isSome = true := by
  intro q hq hqa
  have hp2 := evalStep_ok_prev h
  rw [hp2] at hq
  cases hq
  unfold Evaluate.evalStep at h
  split at h
  case isTrue hca => rw [hca] at hqa; cases hqa
  case isFalse hca =>
    cases prev with
    | none =>
      simp only [Except.ok.injEq, Prod.mk.injEq] at h
      rw [← h.2.2]; simp
    | some p =>
      simp only [Except.ok.injEq, Prod.mk.injEq] at h
      rw [← h.2.2]
      cases hpa : p.user.is_agent with
      | true => simp [hpa]
      | false => simpa [hpa] using hInv p rfl hpa

theorem runFrom_time_taken_iff (xs : List Response) :
    ∀ (prev lastc : Option Response) (i : Nat) (ev : Evaulation),
    (∀ q, prev = some q → q.user.is_agent = false → lastc.isSome = true) →
    ((Evaluate.runFrom prev lastc xs).fst)[i]? = some ev →
    (ev.time_taken.isSome = true ↔
      ((i = 0 ∧ ∃ cur pp, xs[0]? = some cur ∧ prev = some pp ∧
          cur.user.is_agent = true ∧ pp.user.is_agent = false) ∨
       (∃ j cur pp, i = j + 1 ∧ xs[i]? = some cur ∧ xs[j]? = some pp ∧
          cur.user.is_agent = true ∧ pp.user.is_agent = false))) := by
  induction xs with
  | nil => intro prev lastc i ev _ h; simp [Evaluate.runFrom] at h
  | cons c rest ih =>
    intro prev lastc i ev hInv h
    cases hstep : Evaluate.evalStep prev lastc c with
    | error e => rw [runFrom_cons_err hstep] at h; simp at h
    | ok trip =>
      obtain ⟨rt, p2, l2⟩ := trip
      rw [runFrom_cons_ok hstep] at h
      cases i with
      | zero =>
        rw [List.getElem?_cons_zero, Option.some.injEq] at h
        subst h
        constructor
        · intro hsome
          obtain ⟨rt0, hrt0⟩ := Option.isSome_iff_exists.mp hsome
          subst hrt0
          obtain ⟨hca, pp, lc, hprev, hppa, hlc, _⟩ := evalStep_some_rt hstep
          exact Or.inl ⟨rfl, c, pp, by simp, hprev, hca, hppa⟩
        · intro hcase
          rcases hcase with ⟨_, cur, pp, h0, hprev, hcura, hppa⟩ | ⟨j, cur, pp, hj, _, _, _, _⟩
          · rw [List.getElem?_cons_zero, Option.some.injEq] at h0
            subst h0
            subst hprev
            obtain ⟨lc, hlc⟩ := Option.isSome_iff_exists.mp (hInv pp rfl hppa)
            subst hlc
            rw [evalStep_agent_answers hcura hppa] at hstep
            simp only [Except.ok.injEq, Prod.mk.injEq] at hstep
            rw [← hstep.1]
            simp
          · omega
      | succ jj =>
        rw [List.getElem?_cons_succ] at h
        have hp2 := evalStep_ok_prev hstep
        subst hp2
        have hIff := ih (some c) l2 jj ev (evalStep_ok_inv hstep hInv) h
        rw [hIff]
        constructor
        · intro hcase
          rcases hcase with ⟨hj0, cur, pp, h0, hpc, hcura, hppa⟩ |
            ⟨k, cur, pp, hk, hcur, hpp, hcura, hppa⟩
          · subst hj0
            rw [Option.some.injEq] at hpc
            subst hpc
            exact Or.inr ⟨0, cur, c, rfl, by simpa using h0, by simp, hcura, hppa⟩
          · subst hk
            exact Or.inr ⟨k + 1, cur, pp, rfl, by simpa using hcur, by simpa using hpp,
              hcura, hppa⟩
        · intro hcase
          rcases hcase with ⟨hj0, _, _, _, _, _, _⟩ | ⟨j2, cur, pp, hj2, hcur, hpp, hcura, hppa⟩
          · omega
          · have hjj : j2 = jj := by omega
            subst hjj
            cases j2 with
            | zero =>
              rw [List.getElem?_cons_zero, Option.some.injEq] at hpp
              subst hpp
              exact Or.inl ⟨rfl, cur, c, by simpa using hcur, rfl, hcura, hppa⟩
            | succ k =>
              exact Or.inr ⟨k, cur, pp, rfl, by simpa using hcur, by simpa using hpp,
                hcura, hppa⟩

theorem dateOf_add_days (t : Int) (i : Nat) :
    dateOf (t + usPerDay * (i : Int)) = dateOf t + i := by
  unfold dateOf
  rw [Int.fdiv_eq_ediv _ (by decide : (0:Int) ≤ usPerDay),
    Int.fdiv_eq_ediv _ (by decide : (0:Int) ≤ usPerDay)]
  exact Int.add_mul_ediv_left t (i : Int) (by decide)

theorem weekends_mem_iff (t1 t2 : Int) (h : t1 ≤ t2) (d : Int) :
    d ∈ (ResponseTime.make t1 t2).weekends ↔
      (dateOf t1 ≤ d ∧ d ≤ dateOf t1 + Int.fdiv (t2 - t1) usPerDay ∧ 5 ≤ dayWeekday d) := by
  have hdays : 0 ≤ Int.fdiv (t2 - t1) usPerDay :=
    Int.fdiv_nonneg (by omega) (by decide)
  unfold ResponseTime.weekends ResponseTime.make
  constructor
  · intro hmem
    obtain ⟨x, hxf, hdx⟩ := List.mem_map.mp hmem
    obtain ⟨hxm, hwk⟩ := List.mem_filter.mp hxf
    obtain ⟨i, hir, hxi⟩ := List.mem_map.mp hxm
    have hi := List.mem_range.mp hir
    subst hxi
    subst hdx
    rw [decide_eq_true_eq] at hwk
    unfold weekday at hwk
    simp only [] at hwk hi ⊢
    rw [dateOf_add_days] at hwk ⊢
    refine ⟨by omega, by omega, hwk⟩
  · rintro ⟨hlo, hhi, hwk⟩
    refine List.mem_map.mpr ⟨t1 + usPerDay * (((d - dateOf t1).toNat : Nat) : Int),
      List.mem_filter.mpr ⟨List.mem_map.mpr ⟨(d - dateOf t1).toNat,
        List.mem_range.mpr (by simp only []; omega), rfl⟩, ?_⟩, ?_⟩
    · rw [decide_eq_true_eq]
      unfold weekday
      rw [dateOf_add_days]
      have hdd : dateOf t1 + (((d - dateOf t1).toNat : Nat) : Int) = d := by omega
      rw [hdd]
      exact hwk
    · rw [dateOf_add_days]
      omega

theorem weekends_sorted (t1 t2 : Int) :
    (ResponseTime.make t1 t2).weekends.Pairwise (· < ·) := by
  unfold ResponseTime.weekends ResponseTime.make
  refine List.Pairwise.map dateOf (fun a b hab => hab)
    (List.Pairwise.filter _ (List.Pairwise.map _ ?_ (List.pairwise_lt_range _)))
  intro i j hij
  rw [dateOf_add_days, dateOf_add_days]
  omega

theorem weekends_empty_of_lt (t1 t2 : Int) (h : t2 < t1) :
    (ResponseTime.make t1 t2).weekends = [] := by
  unfold ResponseTime.weekends ResponseTime.make
  have hneg : Int.fdiv (t2 - t1) usPerDay < 0 := by
    rw [Int.fdiv_eq_ediv _ (by decide : (0:Int) ≤ usPerDay)]
    exact Int.ediv_neg' (by omega) (by decide)
  have hz : Int.toNat (Int.fdiv (t2 - t1) usPerDay + 1) = 0 := by omega
  simp [hz]

-- Claim theorems.

/-- C1, counterexample: on the one-element stream whose only Response is from
an agent, `Evaluate.__iter__` raises AttributeError before yielding anything,
so the number of emitted Evaluations (zero) differs from the number of input
Responses (one) — the claim's "for every input stream" fails. -/
theorem c1_counterexample :
    ((Evaluate.iter [aR (dtOf 19723 9 0)]).fst).length ≠
      ([aR (dtOf 19723 9 0)] : List Response).length := by decide

/-- C1, amended: for every input stream that is empty or whose first Response
is from a customer (the precondition the code itself documents), the pairer
terminates normally and emits exactly one Evaluation per input Response,
carrying the input Responses in the same order. -/
theorem c1_length_order (rs : List Response)
    (h : rs = [] ∨ ∃ c t, rs = c :: t ∧ c.user.is_agent = false) :
    (Evaluate.iter rs).fst.map Evaulation.response = rs ∧
    ∃ st, (Evaluate.iter rs).snd = Except.ok st := by
  rcases h with h | ⟨c, t, hrs, hc⟩
  · subst h
    exact ⟨by simp [Evaluate.iter, Evaluate.runFrom], (none, none),
      by simp [Evaluate.iter, Evaluate.runFrom]⟩
  · subst hrs
    unfold Evaluate.iter
    rw [runFrom_cons_ok (evalStep_customer_fresh hc (Or.inl rfl))]
    obtain ⟨hmap, p2, l2, hsnd⟩ :=
      runFrom_total t (some c) (some c) (by simp) (fun q hq _ => by simp)
    exact ⟨by simpa using hmap, (p2, l2), by simpa using hsnd⟩

/-- Witness for C1's amended theorem at the concrete stream
[customer 09:00, agent 10:00]. -/
theorem c1_witness :
    (Evaluate.iter [cR (dtOf 19723 9 0), aR (dtOf 19723 10 0)]).fst.map Evaulation.response
        = [cR (dtOf 19723 9 0), aR (dtOf 19723 10 0)] ∧
    ∃ st, (Evaluate.iter [cR (dtOf 19723 9 0), aR (dtOf 19723 10 0)]).snd = Except.ok st :=
  c1_length_order _ (Or.inr ⟨_, _, rfl, by decide⟩)

/-- C2: the spec's scenario 4 input [agent 09:00, customer 09:05].  The claim
says both Evaluations are emitted without a ResponseTime; the code instead
evaluates `prev.user.is_agent()` with `prev = None` on the very first step and
raises AttributeError, yielding nothing. -/
theorem c2_agent_first_crash :
    Evaluate.iter [aR (dtOf 19723 9 0), cR (dtOf 19723 9 5)]
      = ([], Except.error PyErr.attributeError) := by decide

/-- C3: for any stream `p ++ c :: cs ++ a :: t` in which the customer run
`c :: cs` is started fresh (the part `p` before it is empty or ends with an
agent Response), every element of the run is from a customer, and `a` is from
an agent, the Evaluation emitted for `a` (whenever it is emitted) carries a
ResponseTime with `asked_at` equal to the FIRST customer `c`'s `responded_at`
and `answered_at` equal to `a`'s. -/
theorem c3_run_first_customer (p cs t : List Response) (c a : Response)
    (hp : p = [] ∨ ∃ q x, p = q ++ [x] ∧ x.user.is_agent = true)
    (hc : c.user.is_agent = false) (hcs : ∀ x ∈ cs, x.user.is_agent = false)
    (ha : a.user.is_agent = true)
    (hem : (((Evaluate.iter (p ++ c :: (cs ++ a :: t))).fst)[p.length + (cs.length + 1)]?).isSome
      = true) :
    ((Evaluate.iter (p ++ c :: (cs ++ a :: t))).fst)[p.length + (cs.length + 1)]? =
      some ⟨a, some (ResponseTime.make c.responded_at a.responded_at)⟩ :=
  run_gap_get p cs t c a hp hc hcs ha hem

/-- Witness for C3 at the spec's scenario 3: [customer 09:00, customer 09:05,
agent 09:10] — the ResponseTime measures from 09:00, the first ask of the run. -/
theorem c3_witness :
    ((Evaluate.iter [cR (dtOf 19723 9 0), cR (dtOf 19723 9 5), aR (dtOf 19723 9 10)]).fst)[2]? =
      some ⟨aR (dtOf 19723 9 10),
        some (ResponseTime.make (dtOf 19723 9 0) (dtOf 19723 9 10))⟩ :=
  c3_run_first_customer [] [cR (dtOf 19723 9 5)] [] (cR (dtOf 19723 9 0))
    (aR (dtOf 19723 9 10)) (Or.inl rfl) (by decide) (by decide) (by decide) (by decide)

/-- C4, counterexample: in the stream [customer 09:00, customer 09:05,
agent 09:10] the Responses at positions 1 and 2 are a consecutive
customer/agent pair, yet the Evaluation for position 2 carries a ResponseTime
whose `asked_at` is 09:00 — the run's first customer — not position 1's
09:05 as the claim requires. -/
theorem c4_counterexample :
    ((Evaluate.iter [cR (dtOf 19723 9 0), cR (dtOf 19723 9 5), aR (dtOf 19723 9 10)]).fst)[2]? =
      some ⟨aR (dtOf 19723 9 10),
        some (ResponseTime.make (dtOf 19723 9 0) (dtOf 19723 9 10))⟩ ∧
    (ResponseTime.make (dtOf 19723 9 0) (dtOf 19723 9 10)).asked_at ≠
      (cR (dtOf 19723 9 5)).responded_at := by decide

/-- C4, amended: restricted to a customer Response that STARTS its run (its
predecessor, if any, is from an agent), the Evaluation emitted for the agent
Response right after it carries a ResponseTime whose `asked_at` is that
customer's `responded_at` and whose `answered_at` is the agent's. -/
theorem c4_adjacent_pair (p t : List Response) (c a : Response)
    (hp : p = [] ∨ ∃ q x, p = q ++ [x] ∧ x.user.is_agent = true)
    (hc : c.user.is_agent = false) (ha : a.user.is_agent = true)
    (hem : (((Evaluate.iter (p ++ c :: a :: t)).fst)[p.length + 1]?).isSome = true) :
    ((Evaluate.iter (p ++ c :: a :: t)).fst)[p.length + 1]? =
      some ⟨a, some (ResponseTime.make c.responded_at a.responded_at)⟩ :=
  run_gap_get p [] t c a hp hc (by simp) ha hem

/-- Witness for C4's amended theorem at [customer 09:00, agent 09:10]. -/
theorem c4_witness :
    ((Evaluate.iter [cR (dtOf 19723 9 0), aR (dtOf 19723 9 10)]).fst)[1]? =
      some ⟨aR (dtOf 19723 9 10),
        some (ResponseTime.make (dtOf 19723 9 0) (dtOf 19723 9 10))⟩ :=
  c4_adjacent_pair [] [] (cR (dtOf 19723 9 0)) (aR (dtOf 19723 9 10))
    (Or.inl rfl) (by decide) (by decide) (by decide)

/-- C5: an emitted Evaluation carries a ResponseTime exactly when its position
follows a previous input Response, the incoming Response is from an agent and
the immediately preceding Response is from a customer.  In particular the
second of two consecutive agent Responses never carries one, so each
customer-to-agent gap yields exactly one measurement. -/
theorem c5_only_transition (rs : List Response) (i : Nat) (ev : Evaulation)
    (h : ((Evaluate.iter rs).fst)[i]? = some ev) :
    ev.time_taken.isSome = true ↔
      (∃ j cur pp, i = j + 1 ∧ rs[i]? = some cur ∧ rs[j]? = some pp ∧
        cur.user.is_agent = true ∧ pp.user.is_agent = false) := by
  rw [runFrom_time_taken_iff rs none none i ev (fun q hq => by cases hq) h]
  constructor
  · rintro (⟨_, _, pp, _, hprev, _, _⟩ | h2)
    · cases hprev
    · exact h2
  · intro h2
    exact Or.inr h2

/-- Witness for C5 at [customer 09:00, agent 09:10], position 1. -/
theorem c5_witness :
    ((⟨aR (dtOf 19723 9 10), some (ResponseTime.make (dtOf 19723 9 0) (dtOf 19723 9 10))⟩ :
        Evaulation).time_taken.isSome = true) ↔
      (∃ j cur pp, 1 = j + 1 ∧
        ([cR (dtOf 19723 9 0), aR (dtOf 19723 9 10)] : List Response)[1]? = some cur ∧
        ([cR (dtOf 19723 9 0), aR (dtOf 19723 9 10)] : List Response)[j]? = some pp ∧
        cur.user.is_agent = true ∧ pp.user.is_agent = false) :=
  c5_only_transition [cR (dtOf 19723 9 0), aR (dtOf 19723 9 10)] 1
    ⟨aR (dtOf 19723 9 10), some (ResponseTime.make (dtOf 19723 9 0) (dtOf 19723 9 10))⟩
    (by decide)

/-- C6, counterexample: asked Friday 23:00, answered Saturday 01:00 (both ends
nonnegative span).  Saturday's date lies between the two dates inclusive and is
a weekend day, yet `weekends()` is empty: the iteration covers only
`duration.days + 1 = 1` candidate starting at `asked_at`, never reaching the
answer's date. -/
theorem c6_counterexample :
    dtOf 19727 23 0 ≤ dtOf 19728 1 0 ∧
    dateOf (dtOf 19727 23 0) ≤ 19728 ∧ (19728 : Int) ≤ dateOf (dtOf 19728 1 0) ∧
    5 ≤ dayWeekday 19728 ∧
    (19728 : Int) ∉ (ResponseTime.make (dtOf 19727 23 0) (dtOf 19728 1 0)).weekends := by
  decide

/-- C6, amended: for `asked_at ≤ answered_at`, `weekends()` contains exactly
the weekend dates `d` with `asked_at`'s date ≤ d ≤ `asked_at`'s date +
`duration.days` (the date of the last candidate datetime `asked_at +
duration.days` days, which falls short of `answered_at`'s date when the
answer's time of day is earlier than the ask's), in ascending order. -/
theorem c6_weekend_window (t1 t2 : Int) (h : t1 ≤ t2) :
    (∀ d : Int, d ∈ (ResponseTime.make t1 t2).weekends ↔
      (dateOf t1 ≤ d ∧ d ≤ dateOf t1 + Int.fdiv (t2 - t1) usPerDay ∧ 5 ≤ dayWeekday d)) ∧
    (ResponseTime.make t1 t2).weekends.Pairwise (· < ·) :=
  ⟨fun d => weekends_mem_iff t1 t2 h d, weekends_sorted t1 t2⟩

/-- Witness for C6's amended theorem at asked Friday 23:00, answered Saturday
01:00, testing the Saturday date. -/
theorem c6_witness :
    ((19728 : Int) ∈ (ResponseTime.make (dtOf 19727 23 0) (dtOf 19728 1 0)).weekends ↔
      (dateOf (dtOf 19727 23 0) ≤ 19728 ∧
        (19728 : Int) ≤ dateOf (dtOf 19727 23 0) +
          Int.fdiv (dtOf 19728 1 0 - dtOf 19727 23 0) usPerDay ∧
        5 ≤ dayWeekday 19728)) ∧
    (ResponseTime.make (dtOf 19727 23 0) (dtOf 19728 1 0)).weekends.Pairwise (· < ·) :=
  ⟨(c6_weekend_window (dtOf 19727 23 0) (dtOf 19728 1 0) (by decide)).1 19728,
    (c6_weekend_window (dtOf 19727 23 0) (dtOf 19728 1 0) (by decide)).2⟩

/-- C7, counterexample: for [customer Friday 17:00, agent Monday 09:00] the
pairer does produce the ResponseTime, but its duration is 64 hours
(230400000000 microseconds), not the claimed 63:00:00 (226800000000
microseconds). -/
theorem c7_counterexample :
    ((Evaluate.iter [cR (dtOf 19727 17 0), aR (dtOf 19730 9 0)]).fst)[1]? =
      some ⟨aR (dtOf 19730 9 0),
        some (ResponseTime.make (dtOf 19727 17 0) (dtOf 19730 9 0))⟩ ∧
    (ResponseTime.make (dtOf 19727 17 0) (dtOf 19730 9 0)).duration ≠ 226800000000 := by
  decide

/-- C7, amended: for that input the duration is 64:00:00 (2 days 16 hours) and
the weekend dates are exactly the intervening Saturday and Sunday. -/
theorem c7_weekend_scenario :
    ((Evaluate.iter [cR (dtOf 19727 17 0), aR (dtOf 19730 9 0)]).fst)[1]? =
      some ⟨aR (dtOf 19730 9 0),
        some (ResponseTime.make (dtOf 19727 17 0) (dtOf 19730 9 0))⟩ ∧
    (ResponseTime.make (dtOf 19727 17 0) (dtOf 19730 9 0)).duration = 230400000000 ∧
    (ResponseTime.make (dtOf 19727 17 0) (dtOf 19730 9 0)).weekends = [19728, 19729] ∧
    dayWeekday 19728 = 5 ∧ dayWeekday 19729 = 6 := by
  decide

/-- C8: constructing a ResponseTime is total for every pair of timestamps —
`duration` is always `answered_at - asked_at` — and when `answered_at <
asked_at` the weekend sequence is empty rather than an error. -/
theorem c8_duration_total (t1 t2 : Int) :
    (ResponseTime.make t1 t2).duration = t2 - t1 ∧
    (t2 < t1 → (ResponseTime.make t1 t2).weekends = []) :=
  ⟨rfl, fun h => weekends_empty_of_lt t1 t2 h⟩

/-- Witness for C8 at `asked_at = 0`, `answered_at = -1`. -/
theorem c8_witness :
    (ResponseTime.make 0 (-1)).duration = -1 - 0 ∧
    (ResponseTime.make 0 (-1)).weekends = [] :=
  ⟨(c8_duration_total 0 (-1)).1, (c8_duration_total 0 (-1)).2 (by decide)⟩

/-- C9: on the URL path "/agent/tickets/123" the regex matches, but
`cls(**matched.groupdict())` stores the digit STRING "123" in the `id` field
(dataclasses do not coerce to the `id: int` annotation), so the resulting
Ticket differs from one holding the integer 123. -/
theorem c9_ticket_id_is_string :
    Ticket.from_url "/agent/tickets/123" = some ⟨PyVal.str "123"⟩ ∧
    (⟨PyVal.str "123"⟩ : Ticket) ≠ (⟨PyVal.int 123⟩ : Ticket) := by
  decide

/-- C10: every record has the "email", "user type" and "commented at" keys,
and has each of "formula", "weekends" and "response time" exactly when a
ResponseTime is attached; with no ResponseTime those keys are absent
altogether. -/
theorem c10_record_keys (e : Evaulation) :
    ((e.as_record.lookup "email").isSome = true) ∧
    ((e.as_record.lookup "user type").isSome = true) ∧
    ((e.as_record.lookup "commented at").isSome = true) ∧
    ((e.as_record.lookup "formula").isSome = e.time_taken.isSome) ∧
    ((e.as_record.lookup "weekends").isSome = e.time_taken.isSome) ∧
    ((e.as_record.lookup "response time").isSome = e.time_taken.isSome) := by
  obtain ⟨r, tt⟩ := e
  cases tt with
  | none => exact ⟨rfl, rfl, rfl, rfl, rfl, rfl⟩
  | some rt => exact ⟨rfl, rfl, rfl, rfl, rfl, rfl⟩

